import Mathlib

/-!
Verification development for the RTSP-to-WebSocket gateway's session manager
(`server/rtsp-service.ts`).  The service spawns one ffmpeg subprocess per
session, buffers its stdout until an fMP4 initialization segment is detected
(by marker scan, size cap, or timeout), and then fans live chunks out to a
dynamic set of attached PassThrough client queues.  The definitions below are
a shallow embedding of that code: bytes are `Nat`, buffers are `List Nat`,
the JS `Map` and `Set` are association lists and duplicate-free lists, and
the single-threaded event loop is a step function over an explicit event
type.
-/

namespace RTSP

/-- Association-list lookup, modelling `Map.get`. -/
def lookupA {α β : Type} [DecidableEq α] (k : α) : List (α × β) → Option β
  | [] => none
  | p :: rest => if p.1 = k then some p.2 else lookupA k rest

/-- Association-list insert/replace, modelling `Map.set`. -/
def insertA {α β : Type} [DecidableEq α] (k : α) (v : β) : List (α × β) → List (α × β)
  | [] => [(k, v)]
  | p :: rest => if p.1 = k then (k, v) :: rest else p :: insertA k v rest

/-- Association-list in-place value update (used for mutating one client's
record in the client store). -/
def updateA {α β : Type} [DecidableEq α] (k : α) (f : β → β) : List (α × β) → List (α × β)
  | [] => []
  | p :: rest => if p.1 = k then (p.1, f p.2) :: rest else p :: updateA k f rest

/-- Association-list removal, modelling `Map.delete`. -/
def eraseA {α β : Type} [DecidableEq α] (k : α) : List (α × β) → List (α × β)
  | [] => []
  | p :: rest => if p.1 = k then eraseA k rest else p :: eraseA k rest

/-- Boolean membership in a list of client ids, modelling `Set.has`. -/
def hasCid (cid : Nat) : List Nat → Bool
  | [] => false
  | x :: r => x == cid || hasCid cid r

/-- Remove one occurrence of a client id, modelling `Set.delete`. -/
def removeCid (cid : Nat) : List Nat → List Nat
  | [] => []
  | x :: r => if x == cid then r else x :: removeCid cid r

/-- Add a client id, modelling `Set.add` (no duplicates). -/
def setAdd (cid : Nat) (l : List Nat) : List Nat :=
  if hasCid cid l then l else l ++ [cid]

/-- No duplicate client ids. -/
def nodupB : List Nat → Bool
  | [] => true
  | x :: r => !hasCid x r && nodupB r

/-- Boolean test that `p` is an initial segment of `w` (byte-for-byte). -/
def isPre : List Nat → List Nat → Bool
  | [], _ => true
  | _ :: _, [] => false
  | a :: p, b :: w => a == b && isPre p w

/-- Boolean test that the byte pattern `pat` occurs contiguously somewhere in
`buf`, modelling `Buffer.indexOf(pat) !== -1`. -/
def containsSeq (pat : List Nat) : List Nat → Bool
  | [] => isPre pat []
  | b :: rest => isPre pat (b :: rest) || containsSeq pat rest

/-- ASCII bytes of the `ftyp` box marker. -/
def ftypPat : List Nat := [102, 116, 121, 112]

/-- ASCII bytes of the `moov` box marker. -/
def moovPat : List Nat := [109, 111, 111, 118]

/-- ASCII bytes of the `moof` box marker. -/
def moofPat : List Nat := [109, 111, 111, 102]

/-- The structural-marker scan from the stdout data handler:
`hasFtyp || hasMoov || hasMoof` over the combined buffered bytes. -/
def hasMarker (buf : List Nat) : Bool :=
  containsSeq ftypPat buf || containsSeq moovPat buf || containsSeq moofPat buf

/-- `Buffer.concat` over an ordered list of chunks. -/
def bufConcat : List (List Nat) → List Nat
  | [] => []
  | c :: cs => c ++ bufConcat cs

/-- Tunable boundary-detector parameters (`INIT_TIMEOUT_MS`,
`MAX_PREINIT_BYTES`). -/
structure DetectorConfig where
  initTimeoutMs : Nat
  maxPreinitBytes : Nat

/-- The constants of the source: 3000 ms timeout, 5 MiB pre-init cap. -/
def defaultDetectorConfig : DetectorConfig :=
  { initTimeoutMs := 3000, maxPreinitBytes := 5 * 1024 * 1024 }

/-- One PassThrough client queue: its destroyed flag, whether `end()` has been
called on it, and the concatenation of all bytes written to it so far. -/
structure ClientState where
  destroyed : Bool
  ended : Bool
  written : List Nat

/-- The `StreamSession` record of the source.  `process` is the pid of the
spawned ffmpeg process (`null` is `none`), `source` mirrors the non-null
`proc.stdout` handle, `clients` is the id set of attached PassThroughs and
`initTimer` whether the init-timeout is still pending. -/
structure StreamSession where
  id : String
  rtspUrl : String
  process : Option Nat
  source : Bool
  isActive : Bool
  clientCount : Nat
  clients : List Nat
  preInitChunks : List (List Nat)
  preInitSize : Nat
  initBuffer : Option (List Nat)
  initTimer : Bool

/-- The session literal built in `startStream` before any subprocess event has
fired. -/
def mkSession (sessionId rtspUrl : String) (pid : Nat) : StreamSession :=
  { id := sessionId
    rtspUrl := rtspUrl
    process := some pid
    source := true
    isActive := false
    clientCount := 0
    clients := []
    preInitChunks := []
    preInitSize := 0
    initBuffer := none
    initTimer := false }

/-- One session together with the states of every PassThrough it has created
(`store`) and the allocator for fresh client ids. -/
structure SessState where
  sess : StreamSession
  store : List (Nat × ClientState)
  nextCid : Nat

/-- `c.write(bytes)` guarded by `if (!c.destroyed)`. -/
def writeClient (bytes : List Nat) (c : ClientState) : ClientState :=
  if c.destroyed then c else { c with written := c.written ++ bytes }

/-- `for (const c of session.clients) { if (!c.destroyed) c.write(bytes) }`. -/
def writeToClients (bytes : List Nat) : List Nat → List (Nat × ClientState) → List (Nat × ClientState)
  | [], store => store
  | cid :: rest, store => writeToClients bytes rest (updateA cid (writeClient bytes) store)

/-- `c.end()`. -/
def endClient (c : ClientState) : ClientState :=
  { c with ended := true }

/-- `for (const c of session.clients) { try { c.end() } catch {} }`. -/
def endClients : List Nat → List (Nat × ClientState) → List (Nat × ClientState)
  | [], store => store
  | cid :: rest, store => endClients rest (updateA cid endClient store)

/-- The stdout `data` handler of `startStream`.  While `initBuffer` is unset
the chunk is buffered; if the accumulated size strictly exceeds the cap the
buffer is promoted to the init segment, otherwise the combined buffer is
scanned for `ftyp`/`moov`/`moof` and a hit promotes it; in both promotion
branches the init segment is written to every connected client and the
timeout is cancelled.  Once `initBuffer` is set, chunks are relayed directly
to every non-destroyed client. -/
def handleChunk (cfg : DetectorConfig) (data : List Nat) (ss : SessState) : SessState :=
  if ss.sess.initBuffer.isNone then
    let preChunks := ss.sess.preInitChunks ++ [data]
    let preSize := ss.sess.preInitSize + data.length
    if cfg.maxPreinitBytes < preSize then
      let init := bufConcat preChunks
      { ss with
          sess := { ss.sess with
                      initBuffer := some init
                      preInitChunks := []
                      preInitSize := 0
                      initTimer := false }
          store := writeToClients init ss.sess.clients ss.store }
    else
      let combined := bufConcat preChunks
      if hasMarker combined then
        { ss with
            sess := { ss.sess with
                        initBuffer := some combined
                        preInitChunks := []
                        preInitSize := 0
                        initTimer := false }
            store := writeToClients combined ss.sess.clients ss.store }
      else
        { ss with
            sess := { ss.sess with
                        preInitChunks := preChunks
                        preInitSize := preSize } }
  else
    { ss with store := writeToClients data ss.sess.clients ss.store }

/-- The `initTimer` timeout callback.  It can only run while the timer is
still pending; if no init segment was found and some data accumulated, the
accumulated buffer is promoted and sent to connected clients; with no data it
merely logs and clears the timer. -/
def handleTimer (ss : SessState) : SessState :=
  if ss.sess.initTimer then
    if ss.sess.initBuffer.isNone then
      if 0 < ss.sess.preInitChunks.length then
        let init := bufConcat ss.sess.preInitChunks
        { ss with
            sess := { ss.sess with
                        initBuffer := some init
                        preInitChunks := []
                        preInitSize := 0
                        initTimer := false }
            store := writeToClients init ss.sess.clients ss.store }
      else
        { ss with sess := { ss.sess with initTimer := false } }
    else
      { ss with sess := { ss.sess with initTimer := false } }
  else ss

/-- The `proc.on('spawn')` handler: mark the session active and arm the
init timeout. -/
def spawnedHandler (ss : SessState) : SessState :=
  { ss with sess := { ss.sess with isActive := true, initTimer := true } }

/-- The `proc.on('error')` handler: mark the session inactive. -/
def errorHandler (ss : SessState) : SessState :=
  { ss with sess := { ss.sess with isActive := false } }

/-- The session-local part of the `proc.on('close')` handler: deactivate,
cancel the timer, `end()` every client queue and clear the client set. -/
def closeHandler (ss : SessState) : SessState :=
  { ss with
      sess := { ss.sess with isActive := false, initTimer := false, clients := [] }
      store := endClients ss.sess.clients ss.store }

/-- The session-local body of `getStreamData`: if the session has a stdout
source and is active, allocate a fresh PassThrough, register it, bump the
client count, and immediately write `initBuffer` to it when already
resolved. -/
def attachClient (ss : SessState) : SessState :=
  if ss.sess.source && ss.sess.isActive then
    let cid := ss.nextCid
    let c0 : ClientState := { destroyed := false, ended := false, written := [] }
    let c1 := match ss.sess.initBuffer with
      | some b => writeClient b c0
      | none => c0
    { sess := { ss.sess with
                  clients := setAdd cid ss.sess.clients
                  clientCount := ss.sess.clientCount + 1 }
      store := insertA cid c1 ss.store
      nextCid := cid + 1 }
  else ss

/-- The `cleanup` closure registered on a client's close/end/error/finish
events: remove the queue from the set if still present, then decrement
`clientCount` unconditionally, floored at zero (`Math.max(0, n - 1)`, which
is `Nat` subtraction). -/
def cleanupClient (cid : Nat) (ss : SessState) : SessState :=
  let s := ss.sess
  let s1 := if hasCid cid s.clients then { s with clients := removeCid cid s.clients } else s
  { ss with sess := { s1 with clientCount := s1.clientCount - 1 } }

/-- The external consumer destroying its PassThrough. -/
def destroyHandler (cid : Nat) (ss : SessState) : SessState :=
  { ss with store := updateA cid (fun c => { c with destroyed := true }) ss.store }

/-- Everything the single-threaded event loop can deliver to one session. -/
inductive SEvent where
  | spawned
  | chunk (data : List Nat)
  | timer
  | attach
  | cleanup (cid : Nat)
  | destroyC (cid : Nat)
  | procError
  | procClosed

/-- Dispatch one event to the session's handlers. -/
def stepS (cfg : DetectorConfig) (e : SEvent) (ss : SessState) : SessState :=
  match e with
  | .spawned => spawnedHandler ss
  | .chunk data => handleChunk cfg data ss
  | .timer => handleTimer ss
  | .attach => attachClient ss
  | .cleanup cid => cleanupClient cid ss
  | .destroyC cid => destroyHandler cid ss
  | .procError => errorHandler ss
  | .procClosed => closeHandler ss

/-- Run a list of events in order. -/
def runS (cfg : DetectorConfig) : List SEvent → SessState → SessState
  | [], ss => ss
  | e :: es, ss => runS cfg es (stepS cfg e ss)

/-- A freshly created session with an empty client store. -/
def initialSess (sessionId rtspUrl : String) (pid : Nat) : SessState :=
  { sess := mkSession sessionId rtspUrl pid, store := [], nextCid := 0 }

/-- The whole `RTSPService` singleton: the `sessions` map, the states of all
PassThroughs ever handed out, the OS processes (pid, alive) it spawned, and
the fresh-id allocators. -/
structure ServiceState where
  sessions : List (String × StreamSession)
  clientStore : List (Nat × ClientState)
  nextClientId : Nat
  procs : List (Nat × Bool)
  nextProcId : Nat

/-- The record returned by `getSessionStatus` / `getAllSessions`. -/
structure SessionStatus where
  id : String
  isActive : Bool
  clientCount : Nat
  rtspUrl : String

/-- Project a session to its status record. -/
def toStatus (s : StreamSession) : SessionStatus :=
  { id := s.id, isActive := s.isActive, clientCount := s.clientCount, rtspUrl := s.rtspUrl }

/-- `getSessionStatus`: look the session up and report, `null` when absent. -/
def getSessionStatus (sessionId : String) (st : ServiceState) : Option SessionStatus :=
  (lookupA sessionId st.sessions).map toStatus

/-- `getAllSessions`: status records of every tracked session. -/
def getAllSessions (st : ServiceState) : List SessionStatus :=
  st.sessions.map (fun p => toStatus p.2)

/-- `getInitSegment`: the resolved init buffer, `null` when the session is
unknown or unresolved. -/
def getInitSegment (sessionId : String) (st : ServiceState) : Option (List Nat) :=
  match lookupA sessionId st.sessions with
  | some s => s.initBuffer
  | none => none

/-- The synchronous registry part of `startStream`: an existing *active*
session short-circuits (resolve with no state change); otherwise a fresh
ffmpeg process is spawned and a brand-new session replaces whatever was
registered under the identifier.  The previous session's subprocess is left
untouched. -/
def startStream (sessionId rtspUrl : String) (st : ServiceState) : ServiceState :=
  let earlyReturn : Bool :=
    match lookupA sessionId st.sessions with
    | some existing => existing.isActive
    | none => false
  if earlyReturn then st
  else
    let pid := st.nextProcId
    { st with
        sessions := insertA sessionId (mkSession sessionId rtspUrl pid) st.sessions
        procs := insertA pid true st.procs
        nextProcId := pid + 1 }

/-- `stopStream`: when the identifier maps to a session with a live process
handle, SIGKILL the process, `end()` and clear every client queue, and drop
the registry entry; otherwise do nothing. -/
def stopStream (sessionId : String) (st : ServiceState) : ServiceState :=
  match lookupA sessionId st.sessions with
  | some s =>
      match s.process with
      | some pid =>
          { st with
              procs := insertA pid false st.procs
              clientStore := endClients s.clients st.clientStore
              sessions := eraseA sessionId st.sessions }
      | none => st
  | none => st

/-- The registry effect of `proc.on('close')`: the captured session is
deactivated and its timer cancelled, every attached client queue is
`end()`ed, the client set is cleared and the registry entry is deleted.
When the entry is already gone (e.g. `stopStream` ran first and cleared the
captured session's client set) the handler has no observable effect. -/
def handleProcClose (sessionId : String) (st : ServiceState) : ServiceState :=
  match lookupA sessionId st.sessions with
  | some s =>
      { st with
          clientStore := endClients s.clients st.clientStore
          sessions := eraseA sessionId st.sessions }
  | none => st

/-- A sample client record used in concrete witnesses. -/
def demoClient : ClientState :=
  { destroyed := false, ended := false, written := [1] }

/-- A sample active session with one attached queue, for witnesses. -/
def demoSession : StreamSession :=
  { mkSession "a" "u" 0 with isActive := true, clients := [0] }

/-- A sample one-session registry with one attached queue, for witnesses. -/
def demoRegistry : ServiceState :=
  { sessions := [("a", demoSession)]
    clientStore := [(0, demoClient)]
    nextClientId := 1
    procs := [(0, true)]
    nextProcId := 1 }

/-- A sample registry whose only session is still in its pre-spawn
(inactive) state, for witnesses. -/
def demoRegistryInactive : ServiceState :=
  { sessions := [("a", mkSession "a" "u" 0)]
    clientStore := []
    nextClientId := 0
    procs := [(0, true)]
    nextProcId := 1 }

/-- Whether an event can actually be delivered to this session by the real
runtime at this moment, as far as the client-count bookkeeping is concerned:
a `cleanup` is a first-time lifecycle event of a still-attached queue and the
subprocess has not closed.  (Duplicate lifecycle events and the close path
are exactly the places where the count bookkeeping deviates; see the claim-3
counterexample.) -/
def eventOk (e : SEvent) (ss : SessState) : Bool :=
  match e with
  | .cleanup cid => hasCid cid ss.sess.clients
  | .procClosed => false
  | _ => true

/-- All events of the list satisfy `eventOk` at the state where they fire. -/
def goodEvents (cfg : DetectorConfig) : SessState → List SEvent → Bool
  | _, [] => true
  | ss, e :: es => eventOk e ss && goodEvents cfg (stepS cfg e ss) es

/-- The count bookkeeping invariant: `clientCount` agrees with the size of
the client set, and every registered client id is below the allocator. -/
def countLenInv (ss : SessState) : Prop :=
  ss.sess.clientCount = ss.sess.clients.length ∧
  ∀ c, hasCid c ss.sess.clients = true → c < ss.nextCid

/-- Structural well-formedness of a session state: the client set has no
duplicates and all its ids are below the fresh-id allocator. -/
def sessWF (ss : SessState) : Prop :=
  nodupB ss.sess.clients = true ∧
  ∀ c, hasCid c ss.sess.clients = true → c < ss.nextCid

/-! Section: Association-list lemmas -/

theorem lookupA_insertA_self {α β : Type} [DecidableEq α] (k : α) (v : β) (m : List (α × β)) :
    lookupA k (insertA k v m) = some v := by
  induction m with
  | nil => simp [insertA, lookupA]
  | cons p rest ih =>
      by_cases h : p.1 = k
      · simp [insertA, lookupA, h]
      · simp [insertA, lookupA, h, ih]

theorem lookupA_insertA_ne {α β : Type} [DecidableEq α] {k k' : α} (v : β) (m : List (α × β))
    (h : k' ≠ k) : lookupA k' (insertA k v m) = lookupA k' m := by
  have h' : k ≠ k' := Ne.symm h
  induction m with
  | nil => simp [insertA, lookupA, h']
  | cons p rest ih =>
      by_cases hp : p.1 = k
      · subst hp
        simp [insertA, lookupA, h']
      · by_cases hq : p.1 = k'
        · simp [insertA, lookupA, hp, hq, h]
        · simp [insertA, lookupA, hp, hq, ih]

theorem lookupA_updateA_self {α β : Type} [DecidableEq α] (k : α) (f : β → β) (m : List (α × β)) :
    lookupA k (updateA k f m) = (lookupA k m).map f := by
  induction m with
  | nil => simp [updateA, lookupA]
  | cons p rest ih =>
      by_cases h : p.1 = k
      · simp [updateA, lookupA, h]
      · simp [updateA, lookupA, h, ih]

theorem lookupA_updateA_ne {α β : Type} [DecidableEq α] {k k' : α} (f : β → β) (m : List (α × β))
    (h : k' ≠ k) : lookupA k' (updateA k f m) = lookupA k' m := by
  induction m with
  | nil => simp [updateA, lookupA]
  | cons p rest ih =>
      have h' : k ≠ k' := Ne.symm h
      by_cases hp : p.1 = k
      · subst hp
        simp [updateA, lookupA, h']
      · by_cases hq : p.1 = k'
        · simp [updateA, lookupA, hp, hq, h]
        · simp [updateA, lookupA, hp, hq, ih]

theorem lookupA_eraseA_self {α β : Type} [DecidableEq α] (k : α) (m : List (α × β)) :
    lookupA k (eraseA k m) = none := by
  induction m with
  | nil => simp [eraseA, lookupA]
  | cons p rest ih =>
      by_cases h : p.1 = k
      · simp [eraseA, h, ih]
      · simp [eraseA, lookupA, h, ih]

theorem eraseA_of_lookupA_none {α β : Type} [DecidableEq α] (k : α) (m : List (α × β))
    (h : lookupA k m = none) : eraseA k m = m := by
  induction m with
  | nil => simp [eraseA]
  | cons p rest ih =>
      by_cases hp : p.1 = k
      · simp [lookupA, hp] at h
      · simp [lookupA, hp] at h
        simp [eraseA, hp, ih h]

theorem mem_eraseA {α β : Type} [DecidableEq α] {k : α} {m : List (α × β)} {p : α × β}
    (h : p ∈ eraseA k m) : p ∈ m ∧ p.1 ≠ k := by
  induction m with
  | nil => simp [eraseA] at h
  | cons q rest ih =>
      by_cases hq : q.1 = k
      · simp only [eraseA, if_pos hq] at h
        rcases ih h with ⟨h1, h2⟩
        exact ⟨List.mem_cons_of_mem _ h1, h2⟩
      · simp only [eraseA, if_neg hq] at h
        rcases List.mem_cons.mp h with h1 | h1
        · subst h1; exact ⟨List.mem_cons_self _ _, hq⟩
        · rcases ih h1 with ⟨h2, h3⟩
          exact ⟨List.mem_cons_of_mem _ h2, h3⟩

/-! Section: Byte-sequence lemmas -/

theorem isPre_refl (w : List Nat) : isPre w w = true := by
  induction w with
  | nil => rfl
  | cons a r ih => simp [isPre, ih]

theorem isPre_append_self (p t : List Nat) : isPre p (p ++ t) = true := by
  induction p with
  | nil => rfl
  | cons a r ih => simp [isPre, ih]

theorem isPre_extend {p w : List Nat} (t : List Nat) (h : isPre p w = true) :
    isPre p (w ++ t) = true := by
  induction p generalizing w with
  | nil => rfl
  | cons a r ih =>
      cases w with
      | nil => simp [isPre] at h
      | cons b w' =>
          simp [isPre] at h
          simp [isPre, h.1, ih h.2]

theorem isPre_trans {a b c : List Nat} (h1 : isPre a b = true) (h2 : isPre b c = true) :
    isPre a c = true := by
  induction a generalizing b c with
  | nil => rfl
  | cons x r ih =>
      cases b with
      | nil => simp [isPre] at h1
      | cons y b' =>
          cases c with
          | nil => simp [isPre] at h2
          | cons z c' =>
              simp [isPre] at h1 h2 ⊢
              exact ⟨h1.1.trans h2.1, ih h1.2 h2.2⟩

theorem containsSeq_nil_pat (w : List Nat) : containsSeq [] w = true := by
  cases w <;> simp [containsSeq, isPre]

theorem containsSeq_append_left {pat a : List Nat} (b : List Nat)
    (h : containsSeq pat a = true) : containsSeq pat (a ++ b) = true := by
  induction a with
  | nil =>
      cases pat with
      | nil => exact containsSeq_nil_pat b
      | cons x r => simp [containsSeq, isPre] at h
  | cons x r ih =>
      simp only [containsSeq, Bool.or_eq_true] at h
      rcases h with h | h
      · have : isPre pat ((x :: r) ++ b) = true := isPre_extend b h
        simp only [List.cons_append, containsSeq, Bool.or_eq_true]
        exact Or.inl this
      · simp only [List.cons_append, containsSeq, Bool.or_eq_true]
        exact Or.inr (ih h)

theorem hasMarker_append_left {a : List Nat} (b : List Nat)
    (h : hasMarker a = true) : hasMarker (a ++ b) = true := by
  simp only [hasMarker, Bool.or_eq_true] at h ⊢
  rcases h with (h | h) | h
  · exact Or.inl (Or.inl (containsSeq_append_left b h))
  · exact Or.inl (Or.inr (containsSeq_append_left b h))
  · exact Or.inr (containsSeq_append_left b h)

theorem hasMarker_of_append_eq_false {a b : List Nat}
    (h : hasMarker (a ++ b) = false) : hasMarker a = false := by
  cases hm : hasMarker a with
  | false => rfl
  | true =>
      have := hasMarker_append_left b hm
      rw [h] at this
      exact Bool.noConfusion this

theorem bufConcat_append (a b : List (List Nat)) :
    bufConcat (a ++ b) = bufConcat a ++ bufConcat b := by
  induction a with
  | nil => simp [bufConcat]
  | cons c cs ih => simp [bufConcat, ih]

theorem bufConcat_singleton (c : List Nat) : bufConcat [c] = c := by
  simp [bufConcat]

/-! Section: Client-store lemmas -/

theorem hasCid_eq_true_iff (cid : Nat) (l : List Nat) :
    hasCid cid l = true ↔ cid ∈ l := by
  induction l with
  | nil => simp [hasCid]
  | cons x r ih =>
      simp only [hasCid, Bool.or_eq_true, beq_iff_eq, ih, List.mem_cons]
      exact or_congr eq_comm Iff.rfl

theorem writeToClients_not_mem (b : List Nat) (l : List Nat) (store : List (Nat × ClientState))
    {cid : Nat} (h : hasCid cid l = false) :
    lookupA cid (writeToClients b l store) = lookupA cid store := by
  induction l generalizing store with
  | nil => rfl
  | cons x r ih =>
      simp only [hasCid, Bool.or_eq_false_iff, beq_eq_false_iff_ne] at h
      simp only [writeToClients]
      rw [ih _ h.2, lookupA_updateA_ne _ _ (Ne.symm h.1)]

theorem writeToClients_mem (b : List Nat) (l : List Nat) (store : List (Nat × ClientState))
    {cid : Nat} (hn : nodupB l = true) (h : hasCid cid l = true) :
    lookupA cid (writeToClients b l store) = (lookupA cid store).map (writeClient b) := by
  induction l generalizing store with
  | nil => simp [hasCid] at h
  | cons x r ih =>
      simp only [nodupB, Bool.and_eq_true, Bool.not_eq_true'] at hn
      simp only [writeToClients]
      by_cases hx : x = cid
      · subst hx
        have hr : hasCid x r = false := hn.1
        rw [writeToClients_not_mem _ _ _ hr, lookupA_updateA_self]
      · simp only [hasCid, Bool.or_eq_true, beq_iff_eq] at h
        rcases h with h | h
        · exact absurd h hx
        · rw [ih _ hn.2 h, lookupA_updateA_ne _ _ (Ne.symm hx)]

theorem writeToClients_mono (b : List Nat) (l : List Nat) (store : List (Nat × ClientState))
    {cid : Nat} {c : ClientState} (h : lookupA cid store = some c) :
    ∃ c', lookupA cid (writeToClients b l store) = some c' ∧
      isPre c.written c'.written = true ∧ c'.destroyed = c.destroyed := by
  induction l generalizing store c with
  | nil => exact ⟨c, h, isPre_refl _, rfl⟩
  | cons x r ih =>
      simp only [writeToClients]
      by_cases hx : x = cid
      · subst hx
        have h1 : lookupA x (updateA x (writeClient b) store) = some (writeClient b c) := by
          rw [lookupA_updateA_self, h]; rfl
        rcases ih _ h1 with ⟨c', hc', hp, hd⟩
        refine ⟨c', hc', ?_, ?_⟩
        · refine isPre_trans ?_ hp
          by_cases hdes : c.destroyed
          · simp [writeClient, hdes, isPre_refl]
          · simp [writeClient, hdes, isPre_append_self]
        · rw [hd]
          by_cases hdes : c.destroyed <;> simp [writeClient, hdes]
      · have h1 : lookupA cid (updateA x (writeClient b) store) = some c := by
          rw [lookupA_updateA_ne _ _ (Ne.symm hx)]; exact h
        exact ih _ h1

theorem endClient_idem (c : ClientState) : endClient (endClient c) = endClient c := rfl

theorem endClients_not_mem (l : List Nat) (store : List (Nat × ClientState))
    {cid : Nat} (h : hasCid cid l = false) :
    lookupA cid (endClients l store) = lookupA cid store := by
  induction l generalizing store with
  | nil => rfl
  | cons x r ih =>
      simp only [hasCid, Bool.or_eq_false_iff, beq_eq_false_iff_ne] at h
      simp only [endClients]
      rw [ih _ h.2, lookupA_updateA_ne _ _ (Ne.symm h.1)]

theorem endClients_mem (l : List Nat) (store : List (Nat × ClientState))
    {cid : Nat} (h : hasCid cid l = true) :
    lookupA cid (endClients l store) = (lookupA cid store).map endClient := by
  induction l generalizing store with
  | nil => simp [hasCid] at h
  | cons x r ih =>
      simp only [endClients]
      by_cases hr : hasCid cid r = true
      · rw [ih _ hr]
        by_cases hx : x = cid
        · subst hx
          rw [lookupA_updateA_self]
          cases lookupA x store <;> rfl
        · rw [lookupA_updateA_ne _ _ (Ne.symm hx)]
      · have hx : x = cid := by
          simp only [hasCid, Bool.or_eq_true, beq_iff_eq] at h
          rcases h with h | h
          · exact h
          · exact absurd h hr
        subst hx
        rw [endClients_not_mem _ _ (Bool.not_eq_true _ ▸ hr), lookupA_updateA_self]

/-! Section: Resolution is one-shot: `initBuffer` is never reassigned -/

theorem stepS_initBuffer_some (cfg : DetectorConfig) (e : SEvent) (ss : SessState)
    {b : List Nat} (h : ss.sess.initBuffer = some b) :
    (stepS cfg e ss).sess.initBuffer = some b := by
  cases e with
  | spawned => simpa [stepS, spawnedHandler] using h
  | chunk data => simp [stepS, handleChunk, h]
  | timer =>
      simp only [stepS, handleTimer, h]
      split
      · simp [h]
      · exact h
  | attach =>
      simp only [stepS, attachClient]
      split
      · simp [h]
      · exact h
  | cleanup cid =>
      simp only [stepS, cleanupClient]
      split
      · exact h
      · exact h
  | destroyC cid => simpa [stepS, destroyHandler] using h
  | procError => simpa [stepS, errorHandler] using h
  | procClosed => simpa [stepS, closeHandler] using h

theorem runS_initBuffer_some (cfg : DetectorConfig) (es : List SEvent) (ss : SessState)
    {b : List Nat} (h : ss.sess.initBuffer = some b) :
    (runS cfg es ss).sess.initBuffer = some b := by
  induction es generalizing ss with
  | nil => exact h
  | cons e rest ih => exact ih _ (stepS_initBuffer_some cfg e ss h)

/-! Section: Client-set lemmas -/

theorem hasCid_append (c : Nat) (a b : List Nat) :
    hasCid c (a ++ b) = (hasCid c a || hasCid c b) := by
  induction a with
  | nil => simp [hasCid]
  | cons x r ih => simp [hasCid, ih, Bool.or_assoc]

theorem hasCid_removeCid {c cid : Nat} {l : List Nat}
    (h : hasCid c (removeCid cid l) = true) : hasCid c l = true := by
  induction l with
  | nil => simp [removeCid, hasCid] at h
  | cons x r ih =>
      by_cases hx : x == cid
      · simp only [removeCid, if_pos hx] at h
        simp [hasCid, h]
      · simp only [removeCid, if_neg hx, hasCid, Bool.or_eq_true] at h ⊢
        rcases h with h | h
        · exact Or.inl h
        · exact Or.inr (ih h)

theorem length_removeCid_mem {cid : Nat} {l : List Nat}
    (h : hasCid cid l = true) : (removeCid cid l).length + 1 = l.length := by
  induction l with
  | nil => simp [hasCid] at h
  | cons x r ih =>
      by_cases hx : x == cid
      · simp [removeCid, hx]
      · simp only [hasCid, Bool.or_eq_true] at h
        rcases h with h | h
        · exact absurd h (by simpa using hx)
        · simp only [removeCid, if_neg hx, List.length_cons]
          rw [← ih h]

theorem nodupB_append_single {x : Nat} {l : List Nat}
    (hx : hasCid x l = false) (hn : nodupB l = true) : nodupB (l ++ [x]) = true := by
  induction l with
  | nil => simp [nodupB, hasCid]
  | cons y r ih =>
      simp only [hasCid, Bool.or_eq_false_iff, beq_eq_false_iff_ne] at hx
      simp only [nodupB, Bool.and_eq_true, Bool.not_eq_true'] at hn
      simp only [List.cons_append, nodupB, Bool.and_eq_true, Bool.not_eq_true']
      refine ⟨?_, ih hx.2 hn.2⟩
      show hasCid y (r ++ [x]) = false
      rw [hasCid_append, hn.1]
      have hxy : x ≠ y := Ne.symm hx.1
      simp [hasCid, hxy]

theorem nodupB_removeCid {cid : Nat} {l : List Nat}
    (hn : nodupB l = true) : nodupB (removeCid cid l) = true := by
  induction l with
  | nil => simp [removeCid, nodupB]
  | cons x r ih =>
      simp only [nodupB, Bool.and_eq_true, Bool.not_eq_true'] at hn
      by_cases hx : x == cid
      · simp only [removeCid, if_pos hx]
        exact hn.2
      · simp only [removeCid, if_neg hx, nodupB, Bool.and_eq_true, Bool.not_eq_true']
        refine ⟨?_, ih hn.2⟩
        cases hc : hasCid x (removeCid cid r) with
        | false => rfl
        | true => rw [hasCid_removeCid hc] at hn; exact hn.1.symm ▸ rfl

theorem nodupB_setAdd {x : Nat} {l : List Nat}
    (hn : nodupB l = true) : nodupB (setAdd x l) = true := by
  unfold setAdd
  cases hc : hasCid x l with
  | true => simpa using hn
  | false => simpa using nodupB_append_single hc hn

/-! Section: Handler projection lemmas -/

theorem handleChunk_clients (cfg : DetectorConfig) (d : List Nat) (ss : SessState) :
    (handleChunk cfg d ss).sess.clients = ss.sess.clients := by
  unfold handleChunk
  dsimp only
  split
  · split
    · rfl
    · split <;> rfl
  · rfl

theorem handleChunk_clientCount (cfg : DetectorConfig) (d : List Nat) (ss : SessState) :
    (handleChunk cfg d ss).sess.clientCount = ss.sess.clientCount := by
  unfold handleChunk
  dsimp only
  split
  · split
    · rfl
    · split <;> rfl
  · rfl

theorem handleChunk_nextCid (cfg : DetectorConfig) (d : List Nat) (ss : SessState) :
    (handleChunk cfg d ss).nextCid = ss.nextCid := by
  unfold handleChunk
  dsimp only
  split
  · split
    · rfl
    · split <;> rfl
  · rfl

theorem handleTimer_clients (ss : SessState) :
    (handleTimer ss).sess.clients = ss.sess.clients := by
  unfold handleTimer
  split
  · split
    · split <;> rfl
    · rfl
  · rfl

theorem handleTimer_clientCount (ss : SessState) :
    (handleTimer ss).sess.clientCount = ss.sess.clientCount := by
  unfold handleTimer
  split
  · split
    · split <;> rfl
    · rfl
  · rfl

theorem handleTimer_nextCid (ss : SessState) :
    (handleTimer ss).nextCid = ss.nextCid := by
  unfold handleTimer
  split
  · split
    · split <;> rfl
    · rfl
  · rfl

theorem cleanupClient_initBuffer (cid : Nat) (ss : SessState) :
    (cleanupClient cid ss).sess.initBuffer = ss.sess.initBuffer := by
  unfold cleanupClient
  dsimp only
  split <;> rfl

theorem attachClient_initBuffer (ss : SessState) :
    (attachClient ss).sess.initBuffer = ss.sess.initBuffer := by
  unfold attachClient
  dsimp only
  split <;> rfl

theorem handleTimer_initBuffer_of_empty (ss : SessState)
    (h : ¬0 < ss.sess.preInitChunks.length) :
    (handleTimer ss).sess.initBuffer = ss.sess.initBuffer := by
  unfold handleTimer
  by_cases ht : ss.sess.initTimer = true
  · rw [if_pos ht]
    by_cases hn : ss.sess.initBuffer.isNone = true
    · rw [if_pos hn, if_neg h]
    · rw [if_neg hn]
  · rw [if_neg ht]

/-! Section: The client-count bookkeeping invariant -/

theorem stepS_countLenInv (cfg : DetectorConfig) (e : SEvent) (ss : SessState)
    (h : countLenInv ss) (hg : eventOk e ss = true) : countLenInv (stepS cfg e ss) := by
  obtain ⟨hcnt, hbnd⟩ := h
  cases e with
  | spawned => exact ⟨hcnt, hbnd⟩
  | chunk d =>
      refine ⟨?_, ?_⟩
      · rw [stepS, handleChunk_clientCount, handleChunk_clients]; exact hcnt
      · intro c hc
        rw [stepS, handleChunk_clients] at hc
        rw [stepS, handleChunk_nextCid]
        exact hbnd c hc
  | timer =>
      refine ⟨?_, ?_⟩
      · rw [stepS, handleTimer_clientCount, handleTimer_clients]; exact hcnt
      · intro c hc
        rw [stepS, handleTimer_clients] at hc
        rw [stepS, handleTimer_nextCid]
        exact hbnd c hc
  | attach =>
      simp only [stepS, attachClient]
      split
      · have hfresh : hasCid ss.nextCid ss.sess.clients = false := by
          cases hf : hasCid ss.nextCid ss.sess.clients with
          | false => rfl
          | true => exact absurd (hbnd _ hf) (lt_irrefl _)
        refine ⟨?_, ?_⟩
        · simp [setAdd, hfresh, hcnt]
        · intro c hc
          simp only [setAdd, hfresh, Bool.false_eq_true, if_false, hasCid_append,
            Bool.or_eq_true] at hc
          rcases hc with hc | hc
          · exact Nat.lt_succ_of_lt (hbnd c hc)
          · simp only [hasCid, Bool.or_eq_true, beq_iff_eq] at hc
            rcases hc with hc | hc
            · rw [hc]; exact Nat.lt_succ_self _
            · simp [hasCid] at hc
      · exact ⟨hcnt, hbnd⟩
  | cleanup cid =>
      simp only [eventOk] at hg
      simp only [stepS, cleanupClient, hg, if_true]
      refine ⟨?_, ?_⟩
      · have hlen := length_removeCid_mem hg
        simp only []
        rw [hcnt, ← hlen]
        simp
      · intro c hc
        simp only [] at hc
        exact hbnd c (hasCid_removeCid hc)
  | destroyC cid => exact ⟨hcnt, hbnd⟩
  | procError => exact ⟨hcnt, hbnd⟩
  | procClosed => simp [eventOk] at hg

theorem runS_countLenInv (cfg : DetectorConfig) (es : List SEvent) (ss : SessState)
    (h : countLenInv ss) (hg : goodEvents cfg ss es = true) : countLenInv (runS cfg es ss) := by
  induction es generalizing ss with
  | nil => exact h
  | cons e rest ih =>
      simp only [goodEvents, Bool.and_eq_true] at hg
      exact ih _ (stepS_countLenInv cfg e ss h hg.1) hg.2

/-! Section: Structural well-formedness is preserved by every event -/

theorem stepS_sessWF (cfg : DetectorConfig) (e : SEvent) (ss : SessState)
    (h : sessWF ss) : sessWF (stepS cfg e ss) := by
  obtain ⟨hnd, hbnd⟩ := h
  cases e with
  | spawned => exact ⟨hnd, hbnd⟩
  | chunk d =>
      refine ⟨?_, ?_⟩
      · rw [stepS, handleChunk_clients]; exact hnd
      · intro c hc
        rw [stepS, handleChunk_clients] at hc
        rw [stepS, handleChunk_nextCid]
        exact hbnd c hc
  | timer =>
      refine ⟨?_, ?_⟩
      · rw [stepS, handleTimer_clients]; exact hnd
      · intro c hc
        rw [stepS, handleTimer_clients] at hc
        rw [stepS, handleTimer_nextCid]
        exact hbnd c hc
  | attach =>
      simp only [stepS, attachClient]
      split
      · have hfresh : hasCid ss.nextCid ss.sess.clients = false := by
          cases hf : hasCid ss.nextCid ss.sess.clients with
          | false => rfl
          | true => exact absurd (hbnd _ hf) (lt_irrefl _)
        refine ⟨nodupB_setAdd hnd, ?_⟩
        intro c hc
        simp only [setAdd, hfresh, Bool.false_eq_true, if_false, hasCid_append,
          Bool.or_eq_true] at hc
        rcases hc with hc | hc
        · exact Nat.lt_succ_of_lt (hbnd c hc)
        · simp only [hasCid, Bool.or_eq_true, beq_iff_eq] at hc
          rcases hc with hc | hc
          · rw [hc]; exact Nat.lt_succ_self _
          · simp [hasCid] at hc
      · exact ⟨hnd, hbnd⟩
  | cleanup cid =>
      simp only [stepS, cleanupClient]
      split
      · refine ⟨nodupB_removeCid hnd, ?_⟩
        intro c hc
        exact hbnd c (hasCid_removeCid hc)
      · exact ⟨hnd, hbnd⟩
  | destroyC cid => exact ⟨hnd, hbnd⟩
  | procError => exact ⟨hnd, hbnd⟩
  | procClosed =>
      refine ⟨rfl, ?_⟩
      intro c hc
      simp [stepS, closeHandler, hasCid] at hc

theorem runS_sessWF (cfg : DetectorConfig) (es : List SEvent) (ss : SessState)
    (h : sessWF ss) : sessWF (runS cfg es ss) := by
  induction es generalizing ss with
  | nil => exact h
  | cons e rest ih => exact ih _ (stepS_sessWF cfg e ss h)

/-! Section: The id allocator only grows and written bytes only accumulate -/

theorem stepS_nextCid_mono (cfg : DetectorConfig) (e : SEvent) (ss : SessState) :
    ss.nextCid ≤ (stepS cfg e ss).nextCid := by
  cases e with
  | spawned => exact le_refl _
  | chunk d => rw [stepS, handleChunk_nextCid]
  | timer => rw [stepS, handleTimer_nextCid]
  | attach =>
      simp only [stepS, attachClient]
      split
      · exact Nat.le_succ _
      · exact le_refl _
  | cleanup cid => exact le_refl _
  | destroyC cid => exact le_refl _
  | procError => exact le_refl _
  | procClosed => exact le_refl _

theorem endClients_written_mono (l : List Nat) (store : List (Nat × ClientState))
    {cid : Nat} {c : ClientState} (h : lookupA cid store = some c) :
    ∃ c', lookupA cid (endClients l store) = some c' ∧ c'.written = c.written := by
  cases hm : hasCid cid l with
  | false => exact ⟨c, by rw [endClients_not_mem _ _ hm]; exact h, rfl⟩
  | true =>
      refine ⟨endClient c, ?_, rfl⟩
      rw [endClients_mem _ _ hm, h]
      rfl

theorem stepS_written_mono (cfg : DetectorConfig) (e : SEvent) (ss : SessState)
    {cid : Nat} {c : ClientState} (hcid : cid < ss.nextCid)
    (h : lookupA cid ss.store = some c) :
    ∃ c', lookupA cid (stepS cfg e ss).store = some c' ∧ isPre c.written c'.written = true := by
  cases e with
  | spawned => exact ⟨c, h, isPre_refl _⟩
  | chunk d =>
      simp only [stepS, handleChunk]
      split
      · split
        · rcases writeToClients_mono _ ss.sess.clients ss.store h with ⟨c', hc', hp, _⟩
          exact ⟨c', hc', hp⟩
        · split
          · rcases writeToClients_mono _ ss.sess.clients ss.store h with ⟨c', hc', hp, _⟩
            exact ⟨c', hc', hp⟩
          · exact ⟨c, h, isPre_refl _⟩
      · rcases writeToClients_mono _ ss.sess.clients ss.store h with ⟨c', hc', hp, _⟩
        exact ⟨c', hc', hp⟩
  | timer =>
      simp only [stepS, handleTimer]
      split
      · split
        · split
          · rcases writeToClients_mono _ ss.sess.clients ss.store h with ⟨c', hc', hp, _⟩
            exact ⟨c', hc', hp⟩
          · exact ⟨c, h, isPre_refl _⟩
        · exact ⟨c, h, isPre_refl _⟩
      · exact ⟨c, h, isPre_refl _⟩
  | attach =>
      simp only [stepS, attachClient]
      split
      · refine ⟨c, ?_, isPre_refl _⟩
        rw [lookupA_insertA_ne _ _ (Nat.ne_of_lt hcid)]
        exact h
      · exact ⟨c, h, isPre_refl _⟩
  | cleanup cid' => exact ⟨c, h, isPre_refl _⟩
  | destroyC cid' =>
      simp only [stepS, destroyHandler]
      by_cases hx : cid' = cid
      · subst hx
        refine ⟨{ c with destroyed := true }, ?_, isPre_refl _⟩
        rw [lookupA_updateA_self, h]
        rfl
      · refine ⟨c, ?_, isPre_refl _⟩
        rw [lookupA_updateA_ne _ _ (Ne.symm hx)]
        exact h
  | procError => exact ⟨c, h, isPre_refl _⟩
  | procClosed =>
      simp only [stepS, closeHandler]
      rcases endClients_written_mono ss.sess.clients ss.store h with ⟨c', hc', hw⟩
      exact ⟨c', hc', hw ▸ isPre_refl _⟩

theorem runS_written_mono (cfg : DetectorConfig) (es : List SEvent) (ss : SessState)
    {cid : Nat} {c : ClientState} (hcid : cid < ss.nextCid)
    (h : lookupA cid ss.store = some c) :
    ∃ c', lookupA cid (runS cfg es ss).store = some c' ∧ isPre c.written c'.written = true := by
  induction es generalizing ss c with
  | nil => exact ⟨c, h, isPre_refl _⟩
  | cons e rest ih =>
      rcases stepS_written_mono cfg e ss hcid h with ⟨c1, hc1, hp1⟩
      have hcid' : cid < (stepS cfg e ss).nextCid :=
        Nat.lt_of_lt_of_le hcid (stepS_nextCid_mono cfg e ss)
      rcases ih (stepS cfg e ss) hcid' hc1 with ⟨c', hc', hp'⟩
      exact ⟨c', hc', isPre_trans hp1 hp'⟩

/-! Section: While `initBuffer` is unset, no attached client has received bytes -/

theorem stepS_preResolution (cfg : DetectorConfig) (e : SEvent) (ss : SessState)
    (hI : ss.sess.initBuffer = none →
      ∀ cid c, hasCid cid ss.sess.clients = true → lookupA cid ss.store = some c →
        c.written = [])
    (hnone : (stepS cfg e ss).sess.initBuffer = none) :
    ∀ cid c, hasCid cid (stepS cfg e ss).sess.clients = true →
      lookupA cid (stepS cfg e ss).store = some c → c.written = [] := by
  have hpre : ss.sess.initBuffer = none := by
    cases hb : ss.sess.initBuffer with
    | none => rfl
    | some b => rw [stepS_initBuffer_some cfg e ss hb] at hnone; exact Option.noConfusion hnone
  have houter : ss.sess.initBuffer.isNone = true := by rw [hpre]; rfl
  intro cid c hc hl
  cases e with
  | spawned => exact hI hpre cid c hc hl
  | chunk d =>
      by_cases hcap : cfg.maxPreinitBytes < ss.sess.preInitSize + d.length
      · simp only [stepS, handleChunk, if_pos houter, if_pos hcap] at hnone
        exact Option.noConfusion hnone
      · by_cases hmk : hasMarker (bufConcat (ss.sess.preInitChunks ++ [d])) = true
        · simp only [stepS, handleChunk, if_pos houter, if_neg hcap, if_pos hmk] at hnone
          exact Option.noConfusion hnone
        · simp only [stepS, handleChunk, if_pos houter, if_neg hcap, if_neg hmk] at hc hl
          exact hI hpre cid c hc hl
  | timer =>
      by_cases ht : ss.sess.initTimer = true
      · by_cases hlen : 0 < ss.sess.preInitChunks.length
        · simp only [stepS, handleTimer, if_pos ht, if_pos houter, if_pos hlen] at hnone
          exact Option.noConfusion hnone
        · simp only [stepS, handleTimer, if_pos ht, if_pos houter, if_neg hlen] at hc hl
          exact hI hpre cid c hc hl
      · simp only [stepS, handleTimer, if_neg ht] at hc hl
        exact hI hpre cid c hc hl
  | attach =>
      by_cases hg : (ss.sess.source && ss.sess.isActive) = true
      · simp only [stepS, attachClient, if_pos hg, hpre] at hc hl
        by_cases hx : cid = ss.nextCid
        · subst hx
          rw [lookupA_insertA_self] at hl
          cases hl
          rfl
        · rw [lookupA_insertA_ne _ _ hx] at hl
          simp only [setAdd] at hc
          split at hc
          · exact hI hpre cid c hc hl
          · rw [hasCid_append] at hc
            simp only [Bool.or_eq_true] at hc
            rcases hc with hc | hc
            · exact hI hpre cid c hc hl
            · simp only [hasCid, Bool.or_eq_true, beq_iff_eq] at hc
              rcases hc with hc | hc
              · exact absurd hc.symm hx
              · simp [hasCid] at hc
      · simp only [stepS, attachClient, if_neg hg] at hc hl
        exact hI hpre cid c hc hl
  | cleanup cid' =>
      simp only [stepS, cleanupClient] at hc hl
      split at hc
      · exact hI hpre cid c (hasCid_removeCid hc) hl
      · exact hI hpre cid c hc hl
  | destroyC cid' =>
      simp only [stepS, destroyHandler] at hc hl
      by_cases hx : cid' = cid
      · subst hx
        rw [lookupA_updateA_self] at hl
        cases hb : lookupA cid' ss.store with
        | none => rw [hb] at hl; cases hl
        | some c0 =>
            rw [hb] at hl
            cases hl
            exact hI hpre cid' c0 hc hb
      · rw [lookupA_updateA_ne _ _ (Ne.symm hx)] at hl
        exact hI hpre cid c hc hl
  | procError => exact hI hpre cid c hc hl
  | procClosed =>
      simp only [stepS, closeHandler, hasCid] at hc
      exact Bool.noConfusion hc

theorem runS_preResolution (cfg : DetectorConfig) (es : List SEvent) (ss : SessState)
    (hI : ss.sess.initBuffer = none →
      ∀ cid c, hasCid cid ss.sess.clients = true → lookupA cid ss.store = some c →
        c.written = [])
    (hnone : (runS cfg es ss).sess.initBuffer = none) :
    ∀ cid c, hasCid cid (runS cfg es ss).sess.clients = true →
      lookupA cid (runS cfg es ss).store = some c → c.written = [] := by
  induction es generalizing ss with
  | nil => exact hI hnone
  | cons e rest ih =>
      simp only [runS] at hnone ⊢
      exact ih (stepS cfg e ss)
        (fun _ => stepS_preResolution cfg e ss hI
          (by
            cases hb : (stepS cfg e ss).sess.initBuffer with
            | none => rfl
            | some b =>
                rw [runS_initBuffer_some cfg rest _ hb] at hnone
                exact Option.noConfusion hnone))
        hnone

/-- A run of chunk events that stays marker-free and within the size cap
only accumulates the chunks into `preInitChunks`. -/
theorem runS_buffering (cfg : DetectorConfig) (cs : List (List Nat)) (ss : SessState)
    (h0 : ss.sess.initBuffer = none)
    (hsz : ss.sess.preInitSize = (bufConcat ss.sess.preInitChunks).length)
    (hm : hasMarker (bufConcat (ss.sess.preInitChunks ++ cs)) = false)
    (hcap : (bufConcat (ss.sess.preInitChunks ++ cs)).length ≤ cfg.maxPreinitBytes) :
    runS cfg (cs.map SEvent.chunk) ss =
      { ss with sess := { ss.sess with
          preInitChunks := ss.sess.preInitChunks ++ cs
          preInitSize := (bufConcat (ss.sess.preInitChunks ++ cs)).length } } := by
  induction cs generalizing ss with
  | nil =>
      simp only [List.map_nil, runS, List.append_nil]
      rw [← hsz]
  | cons c rest ih =>
      have houter : ss.sess.initBuffer.isNone = true := by rw [h0]; rfl
      have hsplit : ss.sess.preInitChunks ++ c :: rest = (ss.sess.preInitChunks ++ [c]) ++ rest := by
        simp
      have hlenc : ss.sess.preInitSize + c.length =
          (bufConcat (ss.sess.preInitChunks ++ [c])).length := by
        rw [bufConcat_append, List.length_append, hsz, bufConcat_singleton]
      have hmono : (bufConcat (ss.sess.preInitChunks ++ [c])).length ≤
          (bufConcat (ss.sess.preInitChunks ++ c :: rest)).length := by
        rw [hsplit, bufConcat_append (ss.sess.preInitChunks ++ [c]) rest, List.length_append]
        exact Nat.le_add_right _ _
      have hsize : ¬ cfg.maxPreinitBytes < ss.sess.preInitSize + c.length := by
        apply Nat.not_lt.mpr
        rw [hlenc]
        exact le_trans hmono hcap
      have hmk : hasMarker (bufConcat (ss.sess.preInitChunks ++ [c])) = false := by
        have hx : bufConcat (ss.sess.preInitChunks ++ c :: rest) =
            bufConcat (ss.sess.preInitChunks ++ [c]) ++ bufConcat rest := by
          rw [hsplit, bufConcat_append]
        exact hasMarker_of_append_eq_false (hx ▸ hm)
      have hmkneg : ¬ hasMarker (bufConcat (ss.sess.preInitChunks ++ [c])) = true := by
        simp [hmk]
      have hstep : stepS cfg (SEvent.chunk c) ss =
          { ss with sess := { ss.sess with
              preInitChunks := ss.sess.preInitChunks ++ [c]
              preInitSize := ss.sess.preInitSize + c.length } } := by
        simp only [stepS, handleChunk, if_pos houter, if_neg hsize, if_neg hmkneg]
      simp only [List.map_cons, runS, hstep]
      rw [ih]
      · simp only [List.append_assoc, List.singleton_append]
      · exact h0
      · simpa using hlenc
      · rw [show (ss.sess.preInitChunks ++ [c]) ++ rest = ss.sess.preInitChunks ++ c :: rest
          from hsplit.symm]
        exact hm
      · rw [show (ss.sess.preInitChunks ++ [c]) ++ rest = ss.sess.preInitChunks ++ c :: rest
          from hsplit.symm]
        exact hcap

/-- When one event moves `initBuffer` from unset to `some b`, the client set
is untouched by that event and the store is exactly the old store with `b`
broadcast to every (non-destroyed) attached client. -/
theorem stepS_resolving (cfg : DetectorConfig) (e : SEvent) (ss : SessState) {b : List Nat}
    (hpre : ss.sess.initBuffer = none)
    (hpost : (stepS cfg e ss).sess.initBuffer = some b) :
    (stepS cfg e ss).sess.clients = ss.sess.clients ∧
    (stepS cfg e ss).store = writeToClients b ss.sess.clients ss.store := by
  have houter : ss.sess.initBuffer.isNone = true := by rw [hpre]; rfl
  cases e with
  | spawned => rw [stepS, spawnedHandler] at hpost; rw [hpre] at hpost; cases hpost
  | chunk d =>
      by_cases hcap : cfg.maxPreinitBytes < ss.sess.preInitSize + d.length
      · simp only [stepS, handleChunk, if_pos houter, if_pos hcap] at hpost ⊢
        simp only [Option.some.injEq] at hpost
        rw [← hpost]
        exact ⟨trivial, rfl⟩
      · by_cases hmk : hasMarker (bufConcat (ss.sess.preInitChunks ++ [d])) = true
        · simp only [stepS, handleChunk, if_pos houter, if_neg hcap, if_pos hmk] at hpost ⊢
          simp only [Option.some.injEq] at hpost
          rw [← hpost]
          exact ⟨trivial, rfl⟩
        · simp only [stepS, handleChunk, if_pos houter, if_neg hcap, if_neg hmk] at hpost
          rw [hpre] at hpost
          exact Option.noConfusion hpost
  | timer =>
      by_cases ht : ss.sess.initTimer = true
      · by_cases hlen : 0 < ss.sess.preInitChunks.length
        · simp only [stepS, handleTimer, if_pos ht, if_pos houter, if_pos hlen] at hpost ⊢
          simp only [Option.some.injEq] at hpost
          rw [← hpost]
          exact ⟨trivial, rfl⟩
        · rw [show (stepS cfg SEvent.timer ss).sess.initBuffer = ss.sess.initBuffer from
            handleTimer_initBuffer_of_empty ss hlen, hpre] at hpost
          exact Option.noConfusion hpost
      · simp only [stepS, handleTimer, if_neg ht] at hpost
        rw [hpre] at hpost
        exact Option.noConfusion hpost
  | attach =>
      by_cases hg : (ss.sess.source && ss.sess.isActive) = true
      · simp only [stepS, attachClient, if_pos hg, hpre] at hpost
        exact Option.noConfusion hpost
      · simp only [stepS, attachClient, if_neg hg] at hpost
        rw [hpre] at hpost
        exact Option.noConfusion hpost
  | cleanup cid =>
      rw [show (stepS cfg (SEvent.cleanup cid) ss).sess.initBuffer = ss.sess.initBuffer from
        cleanupClient_initBuffer cid ss, hpre] at hpost
      exact Option.noConfusion hpost
  | destroyC cid =>
      rw [show (stepS cfg (SEvent.destroyC cid) ss).sess.initBuffer = ss.sess.initBuffer from
        rfl, hpre] at hpost
      exact Option.noConfusion hpost
  | procError =>
      rw [show (stepS cfg SEvent.procError ss).sess.initBuffer = ss.sess.initBuffer from
        rfl, hpre] at hpost
      exact Option.noConfusion hpost
  | procClosed =>
      rw [show (stepS cfg SEvent.procClosed ss).sess.initBuffer = ss.sess.initBuffer from
        rfl, hpre] at hpost
      exact Option.noConfusion hpost

/-- A chunk that neither exceeds the cap nor completes a marker is only
buffered. -/
theorem handleChunk_buffer_step (cfg : DetectorConfig) (c : List Nat) (ss : SessState)
    (h0 : ss.sess.initBuffer = none)
    (hsize : ¬ cfg.maxPreinitBytes < ss.sess.preInitSize + c.length)
    (hmk : ¬ hasMarker (bufConcat (ss.sess.preInitChunks ++ [c])) = true) :
    stepS cfg (SEvent.chunk c) ss =
      { ss with sess := { ss.sess with
          preInitChunks := ss.sess.preInitChunks ++ [c]
          preInitSize := ss.sess.preInitSize + c.length } } := by
  have houter : ss.sess.initBuffer.isNone = true := by rw [h0]; rfl
  simp only [stepS, handleChunk, if_pos houter, if_neg hsize, if_neg hmk]

/-- A chunk that exceeds the cap or completes a marker promotes the whole
accumulated buffer (including itself) to the init segment, broadcasts it,
and cancels the timer; both promotion branches produce the same state. -/
theorem handleChunk_resolve_step (cfg : DetectorConfig) (c : List Nat) (ss : SessState)
    (h0 : ss.sess.initBuffer = none)
    (hmk : hasMarker (bufConcat (ss.sess.preInitChunks ++ [c])) = true) :
    stepS cfg (SEvent.chunk c) ss =
      { ss with
          sess := { ss.sess with
            initBuffer := some (bufConcat (ss.sess.preInitChunks ++ [c]))
            preInitChunks := []
            preInitSize := 0
            initTimer := false }
          store := writeToClients (bufConcat (ss.sess.preInitChunks ++ [c]))
            ss.sess.clients ss.store } := by
  have houter : ss.sess.initBuffer.isNone = true := by rw [h0]; rfl
  by_cases hcap : cfg.maxPreinitBytes < ss.sess.preInitSize + c.length
  · simp only [stepS, handleChunk, if_pos houter, if_pos hcap]
  · simp only [stepS, handleChunk, if_pos houter, if_neg hcap, if_pos hmk]

/-- After resolution, a chunk is relayed as a live byte range to every
connected (non-destroyed) client. -/
theorem handleChunk_live_step (cfg : DetectorConfig) (c : List Nat) (ss : SessState)
    {b : List Nat} (h : ss.sess.initBuffer = some b) :
    stepS cfg (SEvent.chunk c) ss =
      { ss with store := writeToClients c ss.sess.clients ss.store } := by
  have houter : ¬ ss.sess.initBuffer.isNone = true := by rw [h]; simp
  simp only [stepS, handleChunk, if_neg houter]

theorem runS_append (cfg : DetectorConfig) (es1 es2 : List SEvent) (ss : SessState) :
    runS cfg (es1 ++ es2) ss = runS cfg es2 (runS cfg es1 ss) := by
  induction es1 generalizing ss with
  | nil => rfl
  | cons e rest ih =>
      simp only [List.cons_append, runS]
      exact ih _

theorem lookupA_mem {α β : Type} [DecidableEq α] {k : α} {m : List (α × β)} {v : β}
    (h : lookupA k m = some v) : (k, v) ∈ m := by
  induction m with
  | nil => simp [lookupA] at h
  | cons p rest ih =>
      by_cases hp : p.1 = k
      · simp only [lookupA, if_pos hp, Option.some.injEq] at h
        have : p = (k, v) := by
          cases p
          simp only at hp h
          rw [hp, h]
        rw [← this]
        exact List.mem_cons_self _ _
      · simp only [lookupA, if_neg hp] at h
        exact List.mem_cons_of_mem _ (ih h)

/-! Section: Claim theorems -/

/-- C1: for every sequence of events (output chunks interleaved with any of
the three resolution triggers, attaches, cleanups, and process lifecycle
events), once the session's `initBuffer` is set to a value it keeps exactly
that value: the first trigger to commit wins and every later trigger is a
no-op, so the unset-to-set transition happens at most once and the buffer is
never reassigned. -/
theorem claim1_initBlock_set_once (cfg : DetectorConfig) (es : List SEvent) (ss : SessState)
    (b : List Nat) (h : ss.sess.initBuffer = some b) :
    (runS cfg es ss).sess.initBuffer = some b :=
  runS_initBuffer_some cfg es ss h

/-- Witness for claim 1: a resolved session keeps its init buffer through a
later chunk, a late timer firing and an attach. -/
theorem claim1_initBlock_set_once_witness :
    (runS defaultDetectorConfig [SEvent.chunk [1, 2], SEvent.timer, SEvent.attach]
      { sess := { mkSession "s" "u" 0 with isActive := true, initBuffer := some [9, 8] }
        store := []
        nextCid := 0 }).sess.initBuffer = some [9, 8] :=
  claim1_initBlock_set_once defaultDetectorConfig _ _ [9, 8] rfl

/-- C2 counterexample: with zero bytes produced before the timeout, the timer
callback fires (and clears the timer) but does NOT set `initBuffer` to an
empty buffer — the session stays unresolved, contradicting the claim that
resolution occurs with an empty `initBlock`. -/
theorem claim2_counterexample :
    (runS defaultDetectorConfig [SEvent.spawned, SEvent.timer]
        (initialSess "s" "u" 0)).sess.initBuffer = none ∧
    (runS defaultDetectorConfig [SEvent.spawned, SEvent.timer]
        (initialSess "s" "u" 0)).sess.initTimer = false ∧
    ¬ (runS defaultDetectorConfig [SEvent.spawned, SEvent.timer]
        (initialSess "s" "u" 0)).sess.initBuffer = some [] := by
  refine ⟨rfl, rfl, ?_⟩
  decide

/-- C2 amended: for a session whose subprocess has produced zero bytes when
the configured timeout fires, the timer handler performs no resolution at
all: `initBuffer` stays unset, the timer is cleared, and no bytes are
written to any client queue.  (Timeout promotion happens only when at least
one chunk has accumulated.) -/
theorem claim2_amended_timer_empty (cfg : DetectorConfig) (ss : SessState)
    (h0 : ss.sess.initBuffer = none) (hempty : ss.sess.preInitChunks = []) :
    (stepS cfg SEvent.timer ss).sess.initBuffer = none ∧
    (stepS cfg SEvent.timer ss).sess.initTimer = false ∧
    (stepS cfg SEvent.timer ss).store = ss.store := by
  have hlen : ¬ 0 < ss.sess.preInitChunks.length := by rw [hempty]; simp
  have houter : ss.sess.initBuffer.isNone = true := by rw [h0]; rfl
  cases ht : ss.sess.initTimer with
  | true =>
      simp only [stepS, handleTimer, if_pos ht, if_pos houter, if_neg hlen]
      refine ⟨h0, ?_, ?_⟩ <;> trivial
  | false =>
      have htneg : ¬ ss.sess.initTimer = true := by rw [ht]; exact Bool.false_ne_true
      simp only [stepS, handleTimer, if_neg htneg]
      refine ⟨h0, ?_, ?_⟩
      · exact ht
      · trivial

/-- Witness for the amended claim 2: the freshly spawned zero-byte session at
its timeout. -/
theorem claim2_amended_timer_empty_witness :
    (stepS defaultDetectorConfig SEvent.timer
        (stepS defaultDetectorConfig SEvent.spawned (initialSess "s" "u" 0))).sess.initBuffer
      = none ∧
    (stepS defaultDetectorConfig SEvent.timer
        (stepS defaultDetectorConfig SEvent.spawned (initialSess "s" "u" 0))).sess.initTimer
      = false ∧
    (stepS defaultDetectorConfig SEvent.timer
        (stepS defaultDetectorConfig SEvent.spawned (initialSess "s" "u" 0))).store
      = (stepS defaultDetectorConfig SEvent.spawned (initialSess "s" "u" 0)).store :=
  claim2_amended_timer_empty defaultDetectorConfig _ rfl rfl

/-- C3 counterexample: one queue firing two of its close/end/error/finish
events runs the cleanup twice; the set removal is guarded but the count
decrement is not, so with two clients attached and client 0 cleaned up
twice, `clientCount` reads 0 while the clients set still holds one queue. -/
theorem claim3_counterexample :
    (runS defaultDetectorConfig
        [SEvent.spawned, SEvent.attach, SEvent.attach, SEvent.cleanup 0, SEvent.cleanup 0]
        (initialSess "s" "u" 0)).sess.clientCount = 0 ∧
    (runS defaultDetectorConfig
        [SEvent.spawned, SEvent.attach, SEvent.attach, SEvent.cleanup 0, SEvent.cleanup 0]
        (initialSess "s" "u" 0)).sess.clients.length = 1 ∧
    ¬ (runS defaultDetectorConfig
        [SEvent.spawned, SEvent.attach, SEvent.attach, SEvent.cleanup 0, SEvent.cleanup 0]
        (initialSess "s" "u" 0)).sess.clientCount =
      (runS defaultDetectorConfig
        [SEvent.spawned, SEvent.attach, SEvent.attach, SEvent.cleanup 0, SEvent.cleanup 0]
        (initialSess "s" "u" 0)).sess.clients.length := by
  refine ⟨rfl, rfl, ?_⟩
  decide

/-- C3 amended: after every sequence of attach, chunk, timer and client
lifecycle events in which each cleanup fires while its queue is still in the
clients set, `clientCount` equals the number of queues in the set; a cleanup
for an already-detached queue, by contrast, leaves the set unchanged but
still decrements `clientCount` (floored at zero), so duplicate lifecycle
events from a single queue make the count undercount. -/
theorem claim3_amended_clientCount (cfg : DetectorConfig) (es : List SEvent) (ss : SessState)
    (cid : Nat)
    (h1 : ss.sess.clientCount = ss.sess.clients.length)
    (h2 : ∀ c, hasCid c ss.sess.clients = true → c < ss.nextCid)
    (hg : goodEvents cfg ss es = true)
    (hd : hasCid cid (runS cfg es ss).sess.clients = false) :
    (runS cfg es ss).sess.clientCount = (runS cfg es ss).sess.clients.length ∧
    (cleanupClient cid (runS cfg es ss)).sess.clients = (runS cfg es ss).sess.clients ∧
    (cleanupClient cid (runS cfg es ss)).sess.clientCount =
      (runS cfg es ss).sess.clientCount - 1 := by
  have hinv := runS_countLenInv cfg es ss ⟨h1, h2⟩ hg
  have hdneg : ¬ hasCid cid (runS cfg es ss).sess.clients = true := by
    rw [hd]; exact Bool.false_ne_true
  refine ⟨hinv.1, ?_, ?_⟩
  · simp only [cleanupClient, if_neg hdneg]
  · simp only [cleanupClient, if_neg hdneg]

/-- Witness for the amended claim 3: two attaches and one first-time cleanup
keep the count in sync; a cleanup for the unknown queue id 7 would leave the
set unchanged and decrement the count. -/
theorem claim3_amended_clientCount_witness :
    (runS defaultDetectorConfig
        [SEvent.spawned, SEvent.attach, SEvent.attach, SEvent.cleanup 0]
        (initialSess "s" "u" 0)).sess.clientCount =
      (runS defaultDetectorConfig
        [SEvent.spawned, SEvent.attach, SEvent.attach, SEvent.cleanup 0]
        (initialSess "s" "u" 0)).sess.clients.length ∧
    (cleanupClient 7 (runS defaultDetectorConfig
        [SEvent.spawned, SEvent.attach, SEvent.attach, SEvent.cleanup 0]
        (initialSess "s" "u" 0))).sess.clients =
      (runS defaultDetectorConfig
        [SEvent.spawned, SEvent.attach, SEvent.attach, SEvent.cleanup 0]
        (initialSess "s" "u" 0)).sess.clients ∧
    (cleanupClient 7 (runS defaultDetectorConfig
        [SEvent.spawned, SEvent.attach, SEvent.attach, SEvent.cleanup 0]
        (initialSess "s" "u" 0))).sess.clientCount =
      (runS defaultDetectorConfig
        [SEvent.spawned, SEvent.attach, SEvent.attach, SEvent.cleanup 0]
        (initialSess "s" "u" 0)).sess.clientCount - 1 :=
  claim3_amended_clientCount defaultDetectorConfig _ _ 7 rfl
    (by intro c h; simp [hasCid] at h) (by decide) (by decide)

/-- C5: when the first structural marker appears in the concatenation of the
buffered chunks — here inside chunk 2 of 3 — the resolved `initBuffer` is the
entire accumulated buffer up to and including the chunk in which the marker
was detected (chunk1 ++ chunk2), and a client attached before resolution
receives exactly that init block followed by chunk 3 as the first live byte
range. -/
theorem claim5_pattern_resolution (cfg : DetectorConfig) (sessionId rtspUrl : String) (pid : Nat)
    (c1 c2 c3 : List Nat)
    (h1 : hasMarker c1 = false)
    (hle : c1.length ≤ cfg.maxPreinitBytes)
    (h2 : hasMarker (c1 ++ c2) = true) :
    (runS cfg [SEvent.spawned, SEvent.attach, SEvent.chunk c1, SEvent.chunk c2, SEvent.chunk c3]
        (initialSess sessionId rtspUrl pid)).sess.initBuffer = some (c1 ++ c2) ∧
    lookupA 0 (runS cfg
        [SEvent.spawned, SEvent.attach, SEvent.chunk c1, SEvent.chunk c2, SEvent.chunk c3]
        (initialSess sessionId rtspUrl pid)).store =
      some { destroyed := false, ended := false, written := c1 ++ c2 ++ c3 } := by
  have hsz1 : ¬ cfg.maxPreinitBytes < 0 + c1.length := by
    rw [Nat.zero_add]
    exact Nat.not_lt.mpr hle
  have hm1 : ¬ hasMarker (bufConcat (([] : List (List Nat)) ++ [c1])) = true := by
    rw [List.nil_append, bufConcat_singleton, h1]
    exact Bool.false_ne_true
  have hmk2 : hasMarker (bufConcat ([c1] ++ [c2])) = true := by
    have hb : bufConcat ([c1] ++ [c2]) = c1 ++ c2 := by simp [bufConcat]
    rw [hb]
    exact h2
  have st2 : stepS cfg (SEvent.chunk c1)
      ({ sess := { id := sessionId, rtspUrl := rtspUrl, process := some pid, source := true,
                   isActive := true, clientCount := 1, clients := [0], preInitChunks := [],
                   preInitSize := 0, initBuffer := none, initTimer := true }
         store := [(0, { destroyed := false, ended := false, written := [] })]
         nextCid := 1 } : SessState) =
      { sess := { id := sessionId, rtspUrl := rtspUrl, process := some pid, source := true,
                  isActive := true, clientCount := 1, clients := [0], preInitChunks := [c1],
                  preInitSize := c1.length, initBuffer := none, initTimer := true }
        store := [(0, { destroyed := false, ended := false, written := [] })]
        nextCid := 1 } := by
    rw [handleChunk_buffer_step cfg c1 _ rfl hsz1 hm1]
    simp
  have st3 : stepS cfg (SEvent.chunk c2)
      ({ sess := { id := sessionId, rtspUrl := rtspUrl, process := some pid, source := true,
                   isActive := true, clientCount := 1, clients := [0], preInitChunks := [c1],
                   preInitSize := c1.length, initBuffer := none, initTimer := true }
         store := [(0, { destroyed := false, ended := false, written := [] })]
         nextCid := 1 } : SessState) =
      { sess := { id := sessionId, rtspUrl := rtspUrl, process := some pid, source := true,
                  isActive := true, clientCount := 1, clients := [0], preInitChunks := [],
                  preInitSize := 0, initBuffer := some (c1 ++ c2), initTimer := false }
        store := [(0, { destroyed := false, ended := false, written := c1 ++ c2 })]
        nextCid := 1 } := by
    rw [handleChunk_resolve_step cfg c2 _ rfl hmk2]
    simp [bufConcat, writeToClients, updateA, writeClient]
  have st4 : stepS cfg (SEvent.chunk c3)
      ({ sess := { id := sessionId, rtspUrl := rtspUrl, process := some pid, source := true,
                   isActive := true, clientCount := 1, clients := [0], preInitChunks := [],
                   preInitSize := 0, initBuffer := some (c1 ++ c2), initTimer := false }
         store := [(0, { destroyed := false, ended := false, written := c1 ++ c2 })]
         nextCid := 1 } : SessState) =
      { sess := { id := sessionId, rtspUrl := rtspUrl, process := some pid, source := true,
                  isActive := true, clientCount := 1, clients := [0], preInitChunks := [],
                  preInitSize := 0, initBuffer := some (c1 ++ c2), initTimer := false }
        store := [(0, { destroyed := false, ended := false, written := c1 ++ c2 ++ c3 })]
        nextCid := 1 } := by
    rw [handleChunk_live_step cfg c3 _ rfl]
    simp [writeToClients, updateA, writeClient]
  have hall : runS cfg
      [SEvent.spawned, SEvent.attach, SEvent.chunk c1, SEvent.chunk c2, SEvent.chunk c3]
      (initialSess sessionId rtspUrl pid) =
      stepS cfg (SEvent.chunk c3) (stepS cfg (SEvent.chunk c2) (stepS cfg (SEvent.chunk c1)
        ({ sess := { id := sessionId, rtspUrl := rtspUrl, process := some pid, source := true,
                     isActive := true, clientCount := 1, clients := [0], preInitChunks := [],
                     preInitSize := 0, initBuffer := none, initTimer := true }
           store := [(0, { destroyed := false, ended := false, written := [] })]
           nextCid := 1 } : SessState))) := rfl
  rw [hall, st2, st3, st4]
  exact ⟨rfl, rfl⟩

/-- Witness for claim 5: byte chunks [1], [109,111,111,102] (containing the
`moof` marker) and [7]; the init block is chunk1 ++ chunk2 and the attached
client ends with init ++ chunk3. -/
theorem claim5_pattern_resolution_witness :
    hasMarker [1] = false ∧
    [1].length ≤ defaultDetectorConfig.maxPreinitBytes ∧
    hasMarker ([1] ++ [109, 111, 111, 102]) = true ∧
    (runS defaultDetectorConfig
        [SEvent.spawned, SEvent.attach, SEvent.chunk [1], SEvent.chunk [109, 111, 111, 102],
         SEvent.chunk [7]]
        (initialSess "s" "u" 0)).sess.initBuffer = some ([1] ++ [109, 111, 111, 102]) ∧
    lookupA 0 (runS defaultDetectorConfig
        [SEvent.spawned, SEvent.attach, SEvent.chunk [1], SEvent.chunk [109, 111, 111, 102],
         SEvent.chunk [7]]
        (initialSess "s" "u" 0)).store =
      some { destroyed := false, ended := false
             written := [1] ++ [109, 111, 111, 102] ++ [7] } := by
  refine ⟨by decide, by decide, by decide, ?_, ?_⟩
  · exact (claim5_pattern_resolution defaultDetectorConfig "s" "u" 0
      [1] [109, 111, 111, 102] [7] (by decide) (by decide) (by decide)).1
  · exact (claim5_pattern_resolution defaultDetectorConfig "s" "u" 0
      [1] [109, 111, 111, 102] [7] (by decide) (by decide) (by decide)).2

/-- C4 counterexample: with the configured ceiling at 4 bytes, a marker-free
4-byte chunk makes the accumulated pre-resolution bytes reach the ceiling
exactly, yet the handler (which tests strict excess) performs no resolution:
`initBuffer` stays unset. -/
theorem claim4_counterexample :
    hasMarker [0, 0, 0, 0] = false ∧
    (runS (DetectorConfig.mk 3000 4) [SEvent.spawned, SEvent.chunk [0, 0, 0, 0]]
        (initialSess "s" "u" 0)).sess.preInitSize = (DetectorConfig.mk 3000 4).maxPreinitBytes ∧
    (runS (DetectorConfig.mk 3000 4) [SEvent.spawned, SEvent.chunk [0, 0, 0, 0]]
        (initialSess "s" "u" 0)).sess.initBuffer = none := by
  exact ⟨rfl, rfl, rfl⟩

/-- C4 amended: for a stream with no structural marker, resolution happens in
the processing of the first chunk that makes the accumulated pre-resolution
bytes strictly exceed the configured ceiling (reaching it exactly does not
trigger), and `initBuffer` is then exactly the concatenation of every byte
accumulated so far including that triggering chunk; before that chunk the
session is still unresolved. -/
theorem claim4_amended_size_cap (cfg : DetectorConfig) (sessionId rtspUrl : String) (pid : Nat)
    (cs : List (List Nat)) (c : List Nat)
    (hm : hasMarker (bufConcat cs) = false)
    (hle : (bufConcat cs).length ≤ cfg.maxPreinitBytes)
    (hgt : cfg.maxPreinitBytes < (bufConcat cs).length + c.length) :
    (runS cfg (SEvent.spawned :: cs.map SEvent.chunk)
        (initialSess sessionId rtspUrl pid)).sess.initBuffer = none ∧
    (runS cfg ((SEvent.spawned :: cs.map SEvent.chunk) ++ [SEvent.chunk c])
        (initialSess sessionId rtspUrl pid)).sess.initBuffer = some (bufConcat cs ++ c) := by
  have hrun1 : runS cfg (SEvent.spawned :: cs.map SEvent.chunk) (initialSess sessionId rtspUrl pid)
      = runS cfg (cs.map SEvent.chunk)
          ({ sess := { id := sessionId, rtspUrl := rtspUrl, process := some pid, source := true,
                       isActive := true, clientCount := 0, clients := [], preInitChunks := [],
                       preInitSize := 0, initBuffer := none, initTimer := true }
             store := [], nextCid := 0 } : SessState) := rfl
  have hbuf := runS_buffering cfg cs
    ({ sess := { id := sessionId, rtspUrl := rtspUrl, process := some pid, source := true,
                 isActive := true, clientCount := 0, clients := [], preInitChunks := [],
                 preInitSize := 0, initBuffer := none, initTimer := true }
       store := [], nextCid := 0 } : SessState)
    rfl rfl (by simpa using hm) (by simpa using hle)
  constructor
  · rw [hrun1, hbuf]
  · rw [runS_append, hrun1, hbuf]
    dsimp only
    have hsz : cfg.maxPreinitBytes < (bufConcat ([] ++ cs)).length + c.length := by
      simpa using hgt
    simp only [runS, stepS, handleChunk, Option.isNone_none, if_true, if_pos hsz]
    simp [bufConcat_append, bufConcat_singleton]

/-- Witness for the amended claim 4: ceiling 4, marker-free chunks of 3 then
2 bytes; the second chunk strictly exceeds the cap and promotes all 5
accumulated bytes. -/
theorem claim4_amended_size_cap_witness :
    hasMarker (bufConcat [[0, 0, 0]]) = false ∧
    (bufConcat [[0, 0, 0]]).length ≤ (DetectorConfig.mk 3000 4).maxPreinitBytes ∧
    (DetectorConfig.mk 3000 4).maxPreinitBytes < (bufConcat [[0, 0, 0]]).length + [0, 0].length ∧
    (runS (DetectorConfig.mk 3000 4) (SEvent.spawned :: [[0, 0, 0]].map SEvent.chunk)
        (initialSess "s" "u" 0)).sess.initBuffer = none ∧
    (runS (DetectorConfig.mk 3000 4)
        ((SEvent.spawned :: [[0, 0, 0]].map SEvent.chunk) ++ [SEvent.chunk [0, 0]])
        (initialSess "s" "u" 0)).sess.initBuffer = some (bufConcat [[0, 0, 0]] ++ [0, 0]) := by
  refine ⟨by decide, by decide, by decide, ?_, ?_⟩
  · exact (claim4_amended_size_cap (DetectorConfig.mk 3000 4) "s" "u" 0 [[0, 0, 0]] [0, 0]
      (by decide) (by decide) (by decide)).1
  · exact (claim4_amended_size_cap (DetectorConfig.mk 3000 4) "s" "u" 0 [[0, 0, 0]] [0, 0]
      (by decide) (by decide) (by decide)).2

/-- C6: a client attached while the session is active and `initBuffer` is
already resolved has, immediately after the attach, received exactly the init
block byte-for-byte; and after any further events, everything it has
received still starts with that init block (live ranges only ever get
appended after it). -/
theorem claim6_late_joiner (cfg : DetectorConfig) (ss : SessState) (b : List Nat)
    (es : List SEvent)
    (hb : ss.sess.initBuffer = some b)
    (hsrc : ss.sess.source = true)
    (hact : ss.sess.isActive = true) :
    lookupA ss.nextCid (stepS cfg SEvent.attach ss).store =
      some { destroyed := false, ended := false, written := b } ∧
    ∃ c', lookupA ss.nextCid (runS cfg es (stepS cfg SEvent.attach ss)).store = some c' ∧
      isPre b c'.written = true := by
  have hg : (ss.sess.source && ss.sess.isActive) = true := by rw [hsrc, hact]; rfl
  have hfirst : lookupA ss.nextCid (stepS cfg SEvent.attach ss).store =
      some { destroyed := false, ended := false, written := b } := by
    simp only [stepS, attachClient, if_pos hg, hb]
    rw [lookupA_insertA_self]
    simp [writeClient]
  refine ⟨hfirst, ?_⟩
  have hcid : ss.nextCid < (stepS cfg SEvent.attach ss).nextCid := by
    simp only [stepS, attachClient, if_pos hg]
    exact Nat.lt_succ_self _
  rcases runS_written_mono cfg es _ hcid hfirst with ⟨c', hc', hp⟩
  exact ⟨c', hc', hp⟩

/-- Witness for claim 6: attaching to a resolved active session with init
block [1, 2] yields a queue whose first bytes are [1, 2], still a prefix
after a live chunk [5] is relayed. -/
theorem claim6_late_joiner_witness :
    lookupA 0 (stepS defaultDetectorConfig SEvent.attach
        { sess := { mkSession "s" "u" 0 with isActive := true, initBuffer := some [1, 2] }
          store := []
          nextCid := 0 }).store =
      some { destroyed := false, ended := false, written := [1, 2] } ∧
    ∃ c', lookupA 0 (runS defaultDetectorConfig [SEvent.chunk [5]]
        (stepS defaultDetectorConfig SEvent.attach
          { sess := { mkSession "s" "u" 0 with isActive := true, initBuffer := some [1, 2] }
            store := []
            nextCid := 0 })).store = some c' ∧
      isPre [1, 2] c'.written = true :=
  claim6_late_joiner defaultDetectorConfig
    { sess := { mkSession "s" "u" 0 with isActive := true, initBuffer := some [1, 2] }
      store := []
      nextCid := 0 } [1, 2] [SEvent.chunk [5]] rfl rfl rfl

/-- C7: starting from a fresh session, as long as `initBuffer` is unset no
attached client queue has received a single byte; and when the next event
resolves `initBuffer` to `b`, every queue that was attached during the
pre-resolution window (and is not destroyed) has then received exactly `b`
as its first bytes. -/
theorem claim7_silent_before_resolution (cfg : DetectorConfig) (sessionId rtspUrl : String)
    (pid : Nat) (es : List SEvent)
    (hnone : (runS cfg es (initialSess sessionId rtspUrl pid)).sess.initBuffer = none) :
    (∀ cid c,
      hasCid cid (runS cfg es (initialSess sessionId rtspUrl pid)).sess.clients = true →
      lookupA cid (runS cfg es (initialSess sessionId rtspUrl pid)).store = some c →
      c.written = []) ∧
    (∀ e b,
      (stepS cfg e (runS cfg es (initialSess sessionId rtspUrl pid))).sess.initBuffer = some b →
      ∀ cid c',
        hasCid cid (runS cfg es (initialSess sessionId rtspUrl pid)).sess.clients = true →
        lookupA cid (stepS cfg e (runS cfg es (initialSess sessionId rtspUrl pid))).store
          = some c' →
        c'.destroyed = false → c'.written = b) := by
  have hI : (initialSess sessionId rtspUrl pid).sess.initBuffer = none →
      ∀ cid c, hasCid cid (initialSess sessionId rtspUrl pid).sess.clients = true →
        lookupA cid (initialSess sessionId rtspUrl pid).store = some c → c.written = [] := by
    intro _ cid c hc
    simp [initialSess, mkSession, hasCid] at hc
  have hpart1 := runS_preResolution cfg es (initialSess sessionId rtspUrl pid) hI hnone
  refine ⟨hpart1, ?_⟩
  intro e b hpost cid c' hc hl hd
  have hwf : sessWF (runS cfg es (initialSess sessionId rtspUrl pid)) := by
    apply runS_sessWF
    constructor
    · rfl
    · intro c hcc
      simp [initialSess, mkSession, hasCid] at hcc
  rcases stepS_resolving cfg e _ hnone hpost with ⟨_, hst⟩
  rw [hst] at hl
  rw [writeToClients_mem b _ _ hwf.1 hc] at hl
  cases hpre0 : lookupA cid (runS cfg es (initialSess sessionId rtspUrl pid)).store with
  | none => rw [hpre0] at hl; cases hl
  | some c0 =>
      rw [hpre0] at hl
      have hl2 : writeClient b c0 = c' := by
        simpa using hl
      have hc0w : c0.written = [] := hpart1 cid c0 hc hpre0
      cases hdes : c0.destroyed with
      | true =>
          rw [← hl2] at hd
          simp [writeClient, hdes] at hd
      | false =>
          rw [← hl2]
          simp [writeClient, hdes, hc0w]

/-- Witness for claim 7: a fresh session with a client attached and one
marker-free chunk buffered is still unresolved and the client has received
nothing; the timer event then resolves and hands the client exactly the
buffered byte. -/
theorem claim7_silent_before_resolution_witness :
    ((runS defaultDetectorConfig [SEvent.spawned, SEvent.attach, SEvent.chunk [1]]
        (initialSess "s" "u" 0)).sess.initBuffer = none) ∧
    (∀ c, lookupA 0 (runS defaultDetectorConfig
        [SEvent.spawned, SEvent.attach, SEvent.chunk [1]]
        (initialSess "s" "u" 0)).store = some c → c.written = []) ∧
    (∀ c', lookupA 0 (stepS defaultDetectorConfig SEvent.timer
        (runS defaultDetectorConfig [SEvent.spawned, SEvent.attach, SEvent.chunk [1]]
          (initialSess "s" "u" 0))).store = some c' →
      c'.destroyed = false → c'.written = [1]) := by
  have hnone : (runS defaultDetectorConfig [SEvent.spawned, SEvent.attach, SEvent.chunk [1]]
      (initialSess "s" "u" 0)).sess.initBuffer = none := by decide
  have hmain := claim7_silent_before_resolution defaultDetectorConfig "s" "u" 0
    [SEvent.spawned, SEvent.attach, SEvent.chunk [1]] hnone
  refine ⟨hnone, ?_, ?_⟩
  · intro c hcl
    exact hmain.1 0 c (by decide) hcl
  · intro c' hcl hd
    exact hmain.2 SEvent.timer [1] (by decide) 0 c' (by decide) hcl hd

/-- C8: when the subprocess of a registered session exits (for any reason —
the close handler ignores the exit code and signal, and runs whether or not
`stopStream` was ever called), the session's registry entry is removed, so it
no longer appears in status lookups or the session list, and every client
queue that was attached is `end()`ed. -/
theorem claim8_proc_close_cleanup (st : ServiceState) (sessionId : String) (s : StreamSession)
    (hids : ∀ p ∈ st.sessions, (p.2).id = p.1)
    (hs : lookupA sessionId st.sessions = some s) :
    lookupA sessionId (handleProcClose sessionId st).sessions = none ∧
    getSessionStatus sessionId (handleProcClose sessionId st) = none ∧
    (∀ r ∈ getAllSessions (handleProcClose sessionId st), r.id ≠ sessionId) ∧
    (∀ cid, hasCid cid s.clients = true →
      lookupA cid (handleProcClose sessionId st).clientStore =
        (lookupA cid st.clientStore).map endClient) := by
  have hdef : handleProcClose sessionId st =
      { st with clientStore := endClients s.clients st.clientStore
                sessions := eraseA sessionId st.sessions } := by
    simp only [handleProcClose, hs]
  refine ⟨?_, ?_, ?_, ?_⟩
  · rw [hdef]
    exact lookupA_eraseA_self sessionId st.sessions
  · rw [getSessionStatus, hdef]
    simp [lookupA_eraseA_self]
  · intro r hr
    rw [hdef] at hr
    simp only [getAllSessions, List.mem_map] at hr
    rcases hr with ⟨p, hp, hrp⟩
    rcases mem_eraseA hp with ⟨hpm, hpne⟩
    rw [← hrp]
    have hid := hids p hpm
    simpa [toStatus, hid] using hpne
  · intro cid hcid
    rw [hdef]
    exact endClients_mem s.clients st.clientStore hcid

/-- Witness for claim 8: a one-session registry with one attached queue; the
close handler removes the entry and ends the queue. -/
theorem claim8_proc_close_cleanup_witness :
    lookupA "a" (handleProcClose "a" demoRegistry).sessions = none ∧
    getSessionStatus "a" (handleProcClose "a" demoRegistry) = none ∧
    (∀ r ∈ getAllSessions (handleProcClose "a" demoRegistry), r.id ≠ "a") ∧
    (∀ cid, hasCid cid demoSession.clients = true →
      lookupA cid (handleProcClose "a" demoRegistry).clientStore =
        (lookupA cid demoRegistry.clientStore).map endClient) :=
  claim8_proc_close_cleanup demoRegistry "a" demoSession (by decide) rfl

/-- C9: `stopStream` is idempotent and total: after one call the identifier
is no longer registered (and reports no status), a second call leaves the
state exactly as the first left it, and calling it on a state where the
identifier is unknown is a perfect no-op (and never an error — it is a total
function). -/
theorem claim9_stop_idempotent (sessionId : String) (st : ServiceState)
    (hproc : ∀ p ∈ st.sessions, (p.2).process.isSome = true) :
    lookupA sessionId (stopStream sessionId st).sessions = none ∧
    getSessionStatus sessionId (stopStream sessionId st) = none ∧
    stopStream sessionId (stopStream sessionId st) = stopStream sessionId st ∧
    stopStream sessionId { st with sessions := eraseA sessionId st.sessions } =
      { st with sessions := eraseA sessionId st.sessions } := by
  have hnoop : ∀ st' : ServiceState, lookupA sessionId st'.sessions = none →
      stopStream sessionId st' = st' := by
    intro st' h
    simp only [stopStream, h]
  have h4 : stopStream sessionId { st with sessions := eraseA sessionId st.sessions } =
      { st with sessions := eraseA sessionId st.sessions } :=
    hnoop _ (lookupA_eraseA_self sessionId st.sessions)
  cases hs : lookupA sessionId st.sessions with
  | none =>
      have h1 : stopStream sessionId st = st := hnoop st hs
      rw [h1]
      exact ⟨hs, by simp [getSessionStatus, hs], by rw [h1], h4⟩
  | some s =>
      have hksome := hproc _ (lookupA_mem hs)
      cases hpid : s.process with
      | none => rw [hpid] at hksome; exact Bool.noConfusion hksome
      | some pid =>
          have hdef : stopStream sessionId st =
              { st with procs := insertA pid false st.procs
                        clientStore := endClients s.clients st.clientStore
                        sessions := eraseA sessionId st.sessions } := by
            simp only [stopStream, hs, hpid]
          rw [hdef]
          refine ⟨lookupA_eraseA_self _ _, ?_, ?_, h4⟩
          · simp [getSessionStatus, lookupA_eraseA_self]
          · exact hnoop _ (lookupA_eraseA_self sessionId st.sessions)

/-- Witness for claim 9: a registry holding one session under "a". -/
theorem claim9_stop_idempotent_witness :
    lookupA "a" (stopStream "a" demoRegistry).sessions = none ∧
    getSessionStatus "a" (stopStream "a" demoRegistry) = none ∧
    stopStream "a" (stopStream "a" demoRegistry) = stopStream "a" demoRegistry ∧
    stopStream "a" { demoRegistry with sessions := eraseA "a" demoRegistry.sessions } =
      { demoRegistry with sessions := eraseA "a" demoRegistry.sessions } :=
  claim9_stop_idempotent "a" demoRegistry (by decide)

/-- C10: a `startStream` call whose identifier maps to a non-active session
(still starting, or failed) does not return early: a fresh subprocess is
spawned (and registered alive), the registry entry is replaced by a brand-new
session owning the fresh pid, and the previous session's subprocess is left
exactly as it was (not terminated, not detached). -/
theorem claim10_restart_inactive (st : ServiceState) (sessionId rtspUrl : String)
    (sOld : StreamSession) (p : Nat)
    (hs : lookupA sessionId st.sessions = some sOld)
    (hinact : sOld.isActive = false)
    (_hp : sOld.process = some p)
    (hpneq : p ≠ st.nextProcId) :
    lookupA sessionId (startStream sessionId rtspUrl st).sessions =
      some (mkSession sessionId rtspUrl st.nextProcId) ∧
    lookupA st.nextProcId (startStream sessionId rtspUrl st).procs = some true ∧
    lookupA p (startStream sessionId rtspUrl st).procs = lookupA p st.procs ∧
    (startStream sessionId rtspUrl st).nextProcId = st.nextProcId + 1 := by
  have hdef : startStream sessionId rtspUrl st =
      { st with
          sessions := insertA sessionId (mkSession sessionId rtspUrl st.nextProcId) st.sessions
          procs := insertA st.nextProcId true st.procs
          nextProcId := st.nextProcId + 1 } := by
    simp only [startStream, hs, hinact]
    rfl
  rw [hdef]
  exact ⟨lookupA_insertA_self _ _ _, lookupA_insertA_self _ _ _,
    lookupA_insertA_ne _ _ hpneq, rfl⟩

/-- Witness for claim 10: restarting identifier "a" whose session is still in
its pre-spawn (inactive) state replaces the entry and leaves process 0
alive. -/
theorem claim10_restart_inactive_witness :
    lookupA "a" (startStream "a" "u2" demoRegistryInactive).sessions =
      some (mkSession "a" "u2" 1) ∧
    lookupA 1 (startStream "a" "u2" demoRegistryInactive).procs = some true ∧
    lookupA 0 (startStream "a" "u2" demoRegistryInactive).procs =
      lookupA 0 demoRegistryInactive.procs ∧
    (startStream "a" "u2" demoRegistryInactive).nextProcId = 1 + 1 :=
  claim10_restart_inactive demoRegistryInactive "a" "u2" (mkSession "a" "u" 0) 0
    rfl rfl rfl (by decide)

end RTSP
